import Mathlib

/-!
A verification development for the spatial-grid and terrain subsystem of a
rampart-style building game.  The Rust sources are shallowly embedded:
machine floats (`f32`/`f64`) that only ever hold dyadic values in the
properties below are modelled as rationals, `usize`/`u32` as `Nat`, `i32`
as `Int`, and fallible operations as `Option`.
-/

set_option maxHeartbeats 1000000

namespace Rampart

/-- `Around<T>`: a 3×3 window `((NW,N,NE),(W,C,E),(SW,S,SE))`, embedded as a
tuple of three row tuples exactly as the Rust tuple struct. -/
def Around (T : Type u) : Type u := (T × T × T) × (T × T × T) × (T × T × T)

namespace Around

/-- North entry (top row, middle). -/
def n (a : Around T) : T := a.1.2.1
/-- West entry (middle row, left). -/
def w (a : Around T) : T := a.2.1.1
/-- Center entry. -/
def c (a : Around T) : T := a.2.1.2.1
/-- East entry (middle row, right). -/
def e (a : Around T) : T := a.2.1.2.2
/-- South entry (bottom row, middle). -/
def s (a : Around T) : T := a.2.2.2.1
/-- North-west diagonal entry. -/
def nw (a : Around T) : T := a.1.1
/-- North-east diagonal entry. -/
def ne (a : Around T) : T := a.1.2.2
/-- South-west diagonal entry. -/
def sw (a : Around T) : T := a.2.2.1
/-- South-east diagonal entry. -/
def se (a : Around T) : T := a.2.2.2.2

end Around

/-- `Player` (building.rs / model.rs). -/
inductive Player
  | one
  | two
deriving DecidableEq

/-- `Wall` as in building.rs (`player` only; no entity field). -/
structure Wall where
  player : Player
deriving DecidableEq

/-- `Cannon` as in building.rs. -/
structure Cannon where
  player : Player
deriving DecidableEq

/-- `Structure` (building.rs): a wall or a cannon, each owned by a player. -/
inductive Structure
  | wall (w : Wall)
  | cannon (c : Cannon)
deriving DecidableEq

namespace Building

/-- `ConnectingWall` of building.rs (this revision includes `Isolated`). -/
inductive ConnectingWall
  | isolated
  | northSouth
  | eastWest
  | corner (angle : ℕ)
  | unknown
deriving DecidableEq

/-- `impl From<Around<Option<Structure>>> for ConnectingWall` (building.rs):
an ordered match; every non-`unknown` pattern pins all four diagonal
entries to `None`. -/
def connectingWall : Around (Option Structure) → ConnectingWall
  | ((none, none, none), (none, _, some _), (none, some _, none)) => .corner 0
  | ((none, none, none), (some _, _, none), (none, some _, none)) => .corner 90
  | ((none, some _, none), (some _, _, none), (none, none, none)) => .corner 180
  | ((none, some _, none), (none, _, some _), (none, none, none)) => .corner 270
  | ((none, none, none), (some _, _, some _), (none, none, none)) => .eastWest
  | ((none, some _, none), (none, _, none), (none, some _, none)) => .northSouth
  | ((none, none, none), (none, some _, none), (none, none, none)) => .isolated
  | ((_, _, _), (_, _, _), (_, _, _)) => .unknown

/-- Boolean recomputation of `connectingWall` from the nine occupancy bits,
used to reduce pattern-match reasoning to decidable Boolean facts. -/
def classifyBits (nw n ne w c e sw s se : Bool) : ConnectingWall :=
  match nw, n, ne, w, c, e, sw, s, se with
  | false, false, false, false, _, true, false, true, false => .corner 0
  | false, false, false, true, _, false, false, true, false => .corner 90
  | false, true, false, true, _, false, false, false, false => .corner 180
  | false, true, false, false, _, true, false, false, false => .corner 270
  | false, false, false, true, _, true, false, false, false => .eastWest
  | false, true, false, false, _, false, false, true, false => .northSouth
  | false, false, false, false, true, false, false, false, false => .isolated
  | _, _, _, _, _, _, _, _, _ => .unknown

theorem connectingWall_as_bits (a : Around (Option Structure)) :
    connectingWall a =
      classifyBits a.nw.isSome a.n.isSome a.ne.isSome a.w.isSome a.c.isSome
        a.e.isSome a.sw.isSome a.s.isSome a.se.isSome := by
  obtain ⟨⟨nw, n, ne⟩, ⟨w, c, e⟩, ⟨sw, s, se⟩⟩ := a
  cases nw <;> cases n <;> cases ne <;> cases w <;> cases c <;> cases e <;>
    cases sw <;> cases s <;> cases se <;> rfl

/-- Count of occupied orthogonal neighbors. -/
def orthCount (a : Around (Option Structure)) : ℕ :=
  (if a.n.isSome then 1 else 0) + (if a.w.isSome then 1 else 0) +
    (if a.e.isSome then 1 else 0) + (if a.s.isSome then 1 else 0)

/-- Whether some diagonal neighbor is occupied. -/
def diagOccupied (a : Around (Option Structure)) : Bool :=
  a.nw.isSome || a.ne.isSome || a.sw.isSome || a.se.isSome

end Building

namespace Model

/-- `ConnectingWall` of model.rs (its `Isolated` variant is commented out). -/
inductive ConnectingWall
  | northSouth
  | eastWest
  | corner (angle : ℕ)
  | unknown
deriving DecidableEq

/-- `impl<T> From<&Around<Option<&Option<T>>>> for ConnectingWall`
(model.rs): an ordered match whose patterns constrain only the four
orthogonal entries; diagonals and the center are wildcards throughout. -/
def connectingWall : Around (Option (Option T)) → ConnectingWall
  | ((_, _, _), (_, _, some (some _)), (_, some (some _), _)) => .corner 0
  | ((_, _, _), (some (some _), _, _), (_, some (some _), _)) => .corner 90
  | ((_, some (some _), _), (some (some _), _, _), (_, _, _)) => .corner 180
  | ((_, some (some _), _), (_, _, some (some _)), (_, _, _)) => .corner 270
  | (_, (some (some _), _, some (some _)), _) => .eastWest
  | ((_, some (some _), _), (_, _, _), (_, some (some _), _)) => .northSouth
  | ((_, _, _), (_, _, _), (_, _, _)) => .unknown

/-- Occupancy of one `Option<&Option<T>>` entry: in bounds and holding a
structure. -/
def occupied : Option (Option T) → Bool
  | some (some _) => true
  | _ => false

/-- Boolean recomputation of the model.rs classifier from the four
orthogonal occupancy bits, in source match order (first match wins). -/
def classifyBits (n w e s : Bool) : ConnectingWall :=
  if e && s then .corner 0
  else if w && s then .corner 90
  else if n && w then .corner 180
  else if n && e then .corner 270
  else if w && e then .eastWest
  else if n && s then .northSouth
  else .unknown

theorem connectingWall_as_orth_bits (a : Around (Option (Option T))) :
    connectingWall a =
      classifyBits (occupied a.n) (occupied a.w) (occupied a.e)
        (occupied a.s) := by
  obtain ⟨⟨nw, n, ne⟩, ⟨w, c, e⟩, ⟨sw, s, se⟩⟩ := a
  rcases n with _ | (_ | _) <;> rcases w with _ | (_ | _) <;>
    rcases e with _ | (_ | _) <;> rcases s with _ | (_ | _) <;> rfl

end Model

/-- A wall owned by player one, used as a concrete occupied entry. -/
def wallOne : Structure := Structure.wall ⟨Player.one⟩

/-- Neighborhood with exactly east and south occupied, diagonals free. -/
def exSE : Around (Option Structure) :=
  ((none, none, none), (none, none, some wallOne), (none, some wallOne, none))

/-- Same orthogonal occupancy as `exSE` but with the NW diagonal occupied. -/
def exSEnw : Around (Option Structure) :=
  ((some wallOne, none, none), (none, none, some wallOne),
    (none, some wallOne, none))

/-- Empty neighborhood with an occupied center, diagonals free. -/
def exIsolated : Around (Option Structure) :=
  ((none, none, none), (none, some wallOne, none), (none, none, none))

/-- Neighborhood with exactly north occupied. -/
def exNorthOnly : Around (Option Structure) :=
  ((none, some wallOne, none), (none, some wallOne, none), (none, none, none))

/-- C3 counterexample inputs for the model.rs classifier: east and south
occupied, with and without an occupied NW diagonal. -/
def exMSE : Around (Option (Option Unit)) :=
  ((none, none, none), (none, none, some (some ())),
    (none, some (some ()), none))

/-- As `exMSE` with the NW diagonal occupied. -/
def exMSEnw : Around (Option (Option Unit)) :=
  ((some (some ()), none, none), (none, none, some (some ())),
    (none, some (some ()), none))

/-- C3: the two building.rs inputs agree on the N, S, E, W occupancy and the
center and differ only on the NW diagonal, yet the building.rs classifier
maps one to `Corner 0` and the other to `Unknown`: the classification is
not a function of the orthogonal neighbors alone. -/
theorem c3_building_diagonal_sensitive :
    exSE.n = exSEnw.n ∧ exSE.w = exSEnw.w ∧ exSE.e = exSEnw.e ∧
      exSE.s = exSEnw.s ∧ exSE.c = exSEnw.c ∧
      Building.connectingWall exSE = Building.ConnectingWall.corner 0 ∧
      Building.connectingWall exSEnw = Building.ConnectingWall.unknown := by
  decide

/-- C3 (amended): the model.rs classifier is a function of only the four
orthogonal occupancies — two neighborhoods agreeing on N, W, E, S (and
center) occupancy classify identically, whatever their diagonals hold; the
building.rs classifier, by contrast, pins all four diagonals to `None` in
every non-`Unknown` pattern and is refuted by the counterexample. -/
theorem c3_model_diagonal_independent {T : Type u}
    (a b : Around (Option (Option T)))
    (hn : Model.occupied a.n = Model.occupied b.n)
    (hw : Model.occupied a.w = Model.occupied b.w)
    (he : Model.occupied a.e = Model.occupied b.e)
    (hs : Model.occupied a.s = Model.occupied b.s)
    (_hc : Model.occupied a.c = Model.occupied b.c) :
    Model.connectingWall a = Model.connectingWall b := by
  rw [Model.connectingWall_as_orth_bits, Model.connectingWall_as_orth_bits,
    hn, hw, he, hs]

/-- C3 witness: the amended theorem applied at `exMSE`/`exMSEnw`. -/
theorem c3_model_diagonal_independent_witness :
    Model.connectingWall exMSE = Model.connectingWall exMSEnw :=
  c3_model_diagonal_independent exMSE exMSEnw rfl rfl rfl rfl rfl

/-- C4 counterexample: a neighborhood with zero occupied orthogonal
neighbors (occupied center, empty diagonals) classifies as `Isolated`,
not `Unknown` as the claim states. -/
theorem c4_zero_neighbors_isolated :
    Building.orthCount exIsolated = 0 ∧
      Building.connectingWall exIsolated = Building.ConnectingWall.isolated ∧
      Building.ConnectingWall.isolated ≠ Building.ConnectingWall.unknown := by
  decide

/-- C4 (amended): for the building.rs classifier, 1, 3 or 4 occupied
orthogonal neighbors give `Unknown`, as does any occupied diagonal; zero
orthogonal neighbors give `Isolated` when the center is occupied and all
diagonals are free, `Unknown` otherwise; each of the six non-`Unknown`,
non-`Isolated` results arises exactly from its two-neighbor pattern with
all diagonals free.  The model.rs classifier instead matches wildcards
first-to-last, so a fully-occupied orthogonal neighborhood yields
`Corner 0`, not `Unknown`. -/
theorem c4_classification_table :
    (∀ a : Around (Option Structure),
      ((Building.orthCount a = 1 ∨ Building.orthCount a = 3 ∨
          Building.orthCount a = 4) →
        Building.connectingWall a = Building.ConnectingWall.unknown) ∧
      (Building.diagOccupied a = true →
        Building.connectingWall a = Building.ConnectingWall.unknown) ∧
      (Building.orthCount a = 0 →
        Building.connectingWall a =
          if a.c.isSome && !Building.diagOccupied a then
            Building.ConnectingWall.isolated
          else Building.ConnectingWall.unknown) ∧
      (Building.connectingWall a = Building.ConnectingWall.corner 0 ↔
        Building.diagOccupied a = false ∧ a.n.isSome = false ∧
          a.w.isSome = false ∧ a.e.isSome = true ∧ a.s.isSome = true) ∧
      (Building.connectingWall a = Building.ConnectingWall.corner 90 ↔
        Building.diagOccupied a = false ∧ a.n.isSome = false ∧
          a.w.isSome = true ∧ a.e.isSome = false ∧ a.s.isSome = true) ∧
      (Building.connectingWall a = Building.ConnectingWall.corner 180 ↔
        Building.diagOccupied a = false ∧ a.n.isSome = true ∧
          a.w.isSome = true ∧ a.e.isSome = false ∧ a.s.isSome = false) ∧
      (Building.connectingWall a = Building.ConnectingWall.corner 270 ↔
        Building.diagOccupied a = false ∧ a.n.isSome = true ∧
          a.w.isSome = false ∧ a.e.isSome = true ∧ a.s.isSome = false) ∧
      (Building.connectingWall a = Building.ConnectingWall.eastWest ↔
        Building.diagOccupied a = false ∧ a.n.isSome = false ∧
          a.w.isSome = true ∧ a.e.isSome = true ∧ a.s.isSome = false) ∧
      (Building.connectingWall a = Building.ConnectingWall.northSouth ↔
        Building.diagOccupied a = false ∧ a.n.isSome = true ∧
          a.w.isSome = false ∧ a.e.isSome = false ∧ a.s.isSome = true)) ∧
    (∀ (T : Type) (b : Around (Option (Option T))),
      Model.occupied b.n = true → Model.occupied b.w = true →
      Model.occupied b.e = true → Model.occupied b.s = true →
      Model.connectingWall b = Model.ConnectingWall.corner 0) := by
  constructor
  · intro a
    obtain ⟨⟨nw, n, ne⟩, ⟨w, c, e⟩, ⟨sw, s, se⟩⟩ := a
    rw [Building.connectingWall_as_bits]
    dsimp only [Building.orthCount, Building.diagOccupied, Around.n, Around.w,
      Around.e, Around.s, Around.c, Around.nw, Around.ne, Around.sw, Around.se]
    generalize nw.isSome = b1
    generalize n.isSome = b2
    generalize ne.isSome = b3
    generalize w.isSome = b4
    generalize c.isSome = b5
    generalize e.isSome = b6
    generalize sw.isSome = b7
    generalize s.isSome = b8
    generalize se.isSome = b9
    cases b1 <;> cases b2 <;> cases b3 <;> cases b4 <;> cases b5 <;>
      cases b6 <;> cases b7 <;> cases b8 <;> cases b9 <;> decide
  · intro T b hn hw he hs
    rw [Model.connectingWall_as_orth_bits, hn, hw, he, hs]
    rfl

/-- C4 witness: a single occupied orthogonal neighbor is `Unknown`, and a
fully occupied model.rs orthogonal neighborhood is `Corner 0`. -/
theorem c4_classification_table_witness :
    Building.connectingWall exNorthOnly = Building.ConnectingWall.unknown ∧
      Model.connectingWall
        ((none, some (some ()), none),
          (some (some ()), none, some (some ())),
          (none, some (some (() : Unit)), none)) =
        Model.ConnectingWall.corner 0 :=
  ⟨(c4_classification_table.1 exNorthOnly).1 (by decide),
    c4_classification_table.2 Unit _ rfl rfl rfl rfl⟩

/-! ## Color-ramp layers (terrain/textures.rs) -/

/-- `impl Default for Layers` (textures.rs): the `(threshold, color)` table
in source order, colors as `rgb_u8` triples.  Thresholds `-0.50`, `-0.95`,
`0.04`, `0.55`, `0.85`, `1.00` become exact rationals. -/
def layersDefault : List (ℚ × (ℕ × ℕ × ℕ)) :=
  [(-(1/2), (51, 100, 197)),
    (-(19/20), (57, 106, 203)),
    (1/25, (210, 208, 125)),
    (11/20, (86, 152, 23)),
    (17/20, (62, 107, 18)),
    (1, (27, 55, 32))]

/-- The `Layers::get` scan: the first layer whose threshold is `>=` the
value wins; falling through every layer yields the red sentinel
`Color::RED = rgb(255,0,0)`. -/
def layersScan : List (ℚ × (ℕ × ℕ × ℕ)) → ℚ → ℕ × ℕ × ℕ
  | [], _ => (255, 0, 0)
  | (t, color) :: rest, v => if v ≤ t then color else layersScan rest v

/-- `Layers::get` on the default table. -/
def Layers.get (v : ℚ) : ℕ × ℕ × ℕ := layersScan layersDefault v

/-- C10: because the `-0.50` "water 2" entry precedes the `-0.95` "water 1"
entry and the scan is first-match-wins, `Layers::get` never returns the
"water 1" color `rgb_u8(57,106,203)`; every `v ≤ -0.50` (deep water
included) gets the "water 2" color `rgb_u8(51,100,197)`; and the red
sentinel appears exactly for `v > 1.0`. -/
theorem c10_water1_shadowed (v : ℚ) :
    Layers.get v ≠ (57, 106, 203) ∧
      (v ≤ -(1/2) → Layers.get v = (51, 100, 197)) ∧
      (Layers.get v = (255, 0, 0) ↔ 1 < v) := by
  simp only [Layers.get, layersDefault, layersScan]
  split_ifs with h1 h2 h3 h4 h5 h6
  · exact ⟨by decide, fun _ => rfl,
      ⟨fun h => absurd h (by decide), fun h => by exfalso; linarith⟩⟩
  · exfalso; linarith
  · exact ⟨by decide, fun hv => absurd hv h1,
      ⟨fun h => absurd h (by decide), fun h => by exfalso; linarith⟩⟩
  · exact ⟨by decide, fun hv => absurd hv h1,
      ⟨fun h => absurd h (by decide), fun h => by exfalso; linarith⟩⟩
  · exact ⟨by decide, fun hv => absurd hv h1,
      ⟨fun h => absurd h (by decide), fun h => by exfalso; linarith⟩⟩
  · exact ⟨by decide, fun hv => absurd hv h1,
      ⟨fun h => absurd h (by decide), fun h => by exfalso; linarith⟩⟩
  · exact ⟨by decide, fun hv => absurd hv h1,
      ⟨fun _ => not_le.mp h6, fun _ => rfl⟩⟩

/-- C10 witness: a deep-water value below `-0.95` takes the "water 2"
color and not the "water 1" color. -/
theorem c10_water1_shadowed_witness :
    Layers.get (-2) = (51, 100, 197) ∧ Layers.get (-2) ≠ (57, 106, 203) :=
  ⟨(c10_water1_shadowed (-2)).2.1 (by norm_num), (c10_water1_shadowed (-2)).1⟩

/-! ## RectangularMapping (terrain/mesh.rs) -/

/-- `RectangularMapping<T>`: wraps a source map and answers 4 corner
samples per requested coordinate. -/
structure RectangularMapping (T : Type u) where
  map : T

/-- Row-major `Vec<Vec<T>>` indexing `map[y][x]`; an out-of-range index is
a programmer error in the source (Rust panics) and is modelled by
`default`. -/
def vecIndex [Inhabited T] (m : List (List T)) (c : ℕ × ℕ) : T :=
  (m.getD c.2 []).getD c.1 default

/-- `RectangularMapping::map_coordinates` (terrain/mesh.rs): the four
source coordinates sampled for a requested corner-grid coordinate,
keyed on the parities of `x` and `y`. -/
def RectangularMapping.mapCoordinates (_m : RectangularMapping T)
    (p : ℕ × ℕ) : (ℕ × ℕ) × (ℕ × ℕ) × (ℕ × ℕ) × (ℕ × ℕ) :=
  let x := p.1
  let y := p.2
  match x % 2 == 0, y % 2 == 0 with
  | true, false =>
      ((x / 2, (y - 1) / 2), (x / 2, (y - 1) / 2),
        (x / 2, (y - 1) / 2 + 1), (x / 2, (y - 1) / 2 + 1))
  | false, true =>
      (((x - 1) / 2, y / 2), ((x - 1) / 2 + 1, y / 2),
        ((x - 1) / 2, y / 2), ((x - 1) / 2 + 1, y / 2))
  | false, false =>
      (((x - 1) / 2, (y - 1) / 2), ((x - 1) / 2 + 1, (y - 1) / 2),
        ((x - 1) / 2, (y - 1) / 2 + 1), ((x - 1) / 2 + 1, (y - 1) / 2 + 1))
  | true, true => ((x / 2, y / 2), (x / 2, y / 2), (x / 2, y / 2), (x / 2, y / 2))

/-- `RectangularMapping::get` for a `Vec<Vec<T>>` source: the 4 samples at
the mapped coordinates, in source order. -/
def RectangularMapping.get [Inhabited T]
    (m : RectangularMapping (List (List T))) (p : ℕ × ℕ) : List T :=
  let c := m.mapCoordinates p
  [vecIndex m.map c.1, vecIndex m.map c.2.1,
    vecIndex m.map c.2.2.1, vecIndex m.map c.2.2.2]

/-- The 6×6 test fixture holding `0..36` row-major. -/
def fixture6 : RectangularMapping (List (List ℕ)) :=
  ⟨[[0, 1, 2, 3, 4, 5],
    [6, 7, 8, 9, 10, 11],
    [12, 13, 14, 15, 16, 17],
    [18, 19, 20, 21, 22, 23],
    [24, 25, 26, 27, 28, 29],
    [30, 31, 32, 33, 34, 35]]⟩

/-- C7: on the 6×6 fixture, `get` returns `[0,0,0,0]` at `(0,0)`,
`[0,1,6,7]` at `(1,1)` and `[14,15,20,21]` at `(5,5)`; and in general an
even/even request returns the single source cell `(x/2, y/2)` replicated
into all four samples. -/
theorem c7_rectangular_mapping :
    (fixture6.get (0, 0) = [0, 0, 0, 0] ∧
      fixture6.get (1, 1) = [0, 1, 6, 7] ∧
      fixture6.get (5, 5) = [14, 15, 20, 21]) ∧
    (∀ (T : Type) (_ : Inhabited T) (m : RectangularMapping (List (List T)))
      (x y : ℕ), x % 2 = 0 → y % 2 = 0 →
        m.get (x, y) =
          [vecIndex m.map (x / 2, y / 2), vecIndex m.map (x / 2, y / 2),
            vecIndex m.map (x / 2, y / 2), vecIndex m.map (x / 2, y / 2)]) := by
  refine ⟨⟨by decide, by decide, by decide⟩, ?_⟩
  intro T _ m x y hx hy
  have hx' : (x % 2 == 0) = true := by simp [hx]
  have hy' : (y % 2 == 0) = true := by simp [hy]
  simp only [RectangularMapping.get, RectangularMapping.mapCoordinates, hx', hy']

/-- C7 witness: the general even/even case instantiated on the fixture at
`(2,4)`, whose source cell `(1,2)` holds `13`. -/
theorem c7_rectangular_mapping_witness :
    fixture6.get (2, 4) = [13, 13, 13, 13] := by
  have h := c7_rectangular_mapping.2 ℕ inferInstance fixture6 2 4 rfl rfl
  simpa using h

/-! ## Grid (model/grid.rs) -/

/-- `Grid<T>` (model/grid.rs): a recorded `size = (width, height)` and a
flat row-major item vector. -/
structure Grid (T : Type u) where
  size : ℕ × ℕ
  items : List T

namespace Grid

/-- The `cells.len() == width * height` invariant. -/
def inv (g : Grid T) : Prop := g.items.length = g.size.1 * g.size.2

/-- `Grid::new` asserts `size.0 * size.1 == items.len()`; the panic on a
mismatch is modelled by `none`. -/
def new (size : ℕ × ℕ) (items : List T) : Option (Grid T) :=
  if size.1 * size.2 = items.length then some ⟨size, items⟩ else none

/-- `Grid::from_rows`: the width is taken from the first row (an empty
iterator panics in Rust, modelled by `none`); the flattened rows then go
through `new`, whose assert catches ragged rows. -/
def fromRows (rows : List (List T)) : Option (Grid T) :=
  match rows with
  | [] => none
  | r0 :: _ => new (r0.length, rows.length) rows.flatten

/-- `slice::chunks(k)`: consecutive chunks of `k` elements, the last
possibly shorter; `k = 0` panics in Rust and is modelled by `[]`. -/
def chunks (k : ℕ) (l : List T) : List (List T) :=
  if _h : k = 0 ∨ l.length = 0 then [] else l.take k :: chunks k (l.drop k)
termination_by l.length
decreasing_by
  simp only [List.length_drop]
  omega

/-- `Grid::rows`: the items in row-major chunks of the width. -/
def rows (g : Grid T) : List (List T) := chunks g.size.1 g.items

/-- `Grid::grow`: append one default cell to every row and one extra
all-default row, rebuilding through `from_rows`. -/
def grow [Inhabited T] (g : Grid T) : Option (Grid T) :=
  let newWidth := g.size.1 + 1
  fromRows (g.rows.map (fun row => row ++ [default]) ++
    [List.replicate newWidth default])

/-- `Grid::duplicate`: each cell copied `factor.0` times across, each row
`factor.1` times down, rebuilt through `new`. -/
def duplicate (g : Grid T) (factor : ℕ × ℕ) : Option (Grid T) :=
  let size := (g.size.1 * factor.1, g.size.2 * factor.2)
  let items :=
    ((chunks size.1 (g.items.flatMap fun v => List.replicate factor.1 v)).flatMap
      fun row => List.replicate factor.2 row).flatten
  new size items

/-- `slice::windows(2)` as the list of adjacent pairs. -/
def pairs (l : List T) : List (T × T) := l.zip l.tail

/-- The per-row half of `Grid::expand`: the first window contributes
three cells, later windows two. -/
def expandRow (row : List T) : List (List T) :=
  (pairs row).enum.flatMap fun ie =>
    if ie.1 = 0 then
      [[ie.2.1, ie.2.1], [ie.2.1, ie.2.2], [ie.2.2, ie.2.2]]
    else [[ie.2.1, ie.2.2], [ie.2.2, ie.2.2]]

/-- `Grid::expand` (model/grid.rs): doubles resolution minus one, giving
each output cell up to four source samples; rebuilt through `new`. -/
def expand (g : Grid T) : Option (Grid (List T)) :=
  let rows' := chunks g.size.1 g.items
  let items1 := rows'.map expandRow
  let items2 :=
    ((pairs items1).enum.flatMap fun ip =>
      let r2 := ip.2.2.map fun p => p ++ p
      let r1 := (ip.2.1.zip ip.2.2).map fun tb => tb.1 ++ tb.2
      if ip.1 = 0 then
        let r0 := ip.2.1.map fun p => p ++ p
        [r0, r1, r2]
      else [r1, r2]).flatten
  new (g.size.1 * 2 - 1, g.size.2 * 2 - 1) items2

/-- `Grid::get` (model/grid.rs): per-axis bounds check first, then a
row-major `x + y * width` read of the item vector. -/
def get (g : Grid T) (idx : ℤ × ℤ) : Option T :=
  if (g.size.1 : ℤ) ≤ idx.1 ∨ (g.size.2 : ℤ) ≤ idx.2 ∨ idx.1 < 0 ∨ idx.2 < 0 then
    none
  else g.items[idx.1.toNat + idx.2.toNat * g.size.1]?

end Grid

/-! ## WorldGeometry (model.rs) -/

/-- `WorldGeometry<T>` (model.rs): `size` and flat `map`. -/
structure WorldGeometry (T : Type u) where
  size : ℕ × ℕ
  map : List T

namespace WorldGeometry

/-- The `map.len() == width * height` invariant. -/
def inv (g : WorldGeometry T) : Prop := g.map.length = g.size.1 * g.size.2

/-- `WorldGeometry::new`: `size.0 * size.1` default-valued cells. -/
def new (T : Type u) [Inhabited T] (size : ℕ × ℕ) : WorldGeometry T :=
  ⟨size, List.replicate (size.1 * size.2) default⟩

/-- `coordinates_to_index` (model.rs): `c.1 * self.size.1 + c.0` — the
stride is `size.1`, the grid HEIGHT, not the width. -/
def coordinatesToIndex (g : WorldGeometry T) (c : ℕ × ℕ) : ℕ :=
  c.2 * g.size.2 + c.1

/-- `WorldGeometry::get` (model.rs): a single flat-index length check;
there is no per-axis bounds check. -/
def get (g : WorldGeometry T) (c : ℕ × ℕ) : Option T :=
  g.map[g.coordinatesToIndex c]?

/-- `WorldGeometry::set`: writes at the computed flat index.  The Rust
out-of-range panic is modelled as a no-op (`List.set` past the end);
every write reasoned about below is in range. -/
def set (g : WorldGeometry T) (c : ℕ × ℕ) (v : T) : WorldGeometry T :=
  ⟨g.size, g.map.set (g.coordinatesToIndex c) v⟩

/-- `WorldGeometry::outline`: both full horizontal edges for `x0..=x1`,
then the two side columns for `y0+1..y1`, in source write order. -/
def outline (g : WorldGeometry T) (p0 p1 : ℕ × ℕ) (v : T) : WorldGeometry T :=
  let g1 := (List.range' p0.1 (p1.1 + 1 - p0.1)).foldl
    (fun g x => (g.set (x, p0.2) v).set (x, p1.2) v) g
  (List.range' (p0.2 + 1) (p1.2 - (p0.2 + 1))).foldl
    (fun g y => (g.set (p0.1, y) v).set (p1.1, y) v) g1

/-- `index_to_grid` (model.rs): `(index % width, index / HEIGHT)` — the
divisor mixes the axes on non-square grids. -/
def indexToGrid (g : WorldGeometry T) (index : ℕ) : ℕ × ℕ :=
  (index % g.size.1, index / g.size.2)

/-- `index_to_coordindates` (sic, model.rs): centers the grid on the
world origin using the integer half of the size, then offsets by half a
tile (`TILE_SIZE = 1`). -/
def indexToCoordindates (g : WorldGeometry T) (index : ℕ) : ℚ × ℚ :=
  let c := g.indexToGrid index
  ((c.1 : ℚ) - ((g.size.1 / 2 : ℕ) : ℚ) + 1 / 2,
    (c.2 : ℚ) - ((g.size.2 / 2 : ℕ) : ℚ) + 1 / 2)

/-- `grid_position` (model.rs): grid cell to world-space center. -/
def gridPosition (g : WorldGeometry T) (grid : ℕ × ℕ) : ℚ × ℚ :=
  g.indexToCoordindates (g.coordinatesToIndex grid)

end WorldGeometry

/-! ## Terrain (terrain.rs) -/

namespace Terrain

/-- `Vec2::as_uvec2` per component: a Rust float-to-`u32` `as` cast
truncates toward zero and saturates below at `0`; on the non-negative
values the guard admits this is the floor, and on negatives `Int.toNat`
reproduces the saturation. -/
def truncToNat (q : ℚ) : ℕ := (⌊q⌋).toNat

/-- `Terrain::world_to_local`: half the world footprint `(w/2, 0, h/2)`. -/
def worldToLocal (size : ℕ × ℕ) : ℚ × ℚ × ℚ :=
  ((size.1 : ℚ) / 2, 0, (size.2 : ℚ) / 2)

/-- `Terrain::world_to_grid` (terrain.rs): recenters the position by the
half extent, keeps the XZ plane, rejects coordinates below `0` or
STRICTLY above the size — the far boundary `local == size` passes — and
truncates to cell indices. -/
def worldToGrid (size : ℕ × ℕ) (position : ℚ × ℚ × ℚ) : Option (ℕ × ℕ) :=
  let l := (position.1 + (worldToLocal size).1,
    position.2.2 + (worldToLocal size).2.2)
  if (size.1 : ℚ) < l.1 ∨ (size.2 : ℚ) < l.2 ∨ l.1 < 0 ∨ l.2 < 0 then none
  else some (truncToNat l.1, truncToNat l.2)

/-- `Survey` (terrain.rs): the classification enum of this revision — no
payload fields. -/
inductive Survey
  | ground
  | beach
  | water
deriving DecidableEq

/-- `Terrain::survey` (terrain.rs): when the position maps to a grid cell
the body builds the 3×3 neighborhood of that cell from the noise map,
logs it, and falls through to `None`; out of bounds is also `None`.  The
discarded neighborhood lookup cannot affect the result and is not
modelled further. -/
def survey (size : ℕ × ℕ) (position : ℚ × ℚ × ℚ) : Option Survey :=
  match worldToGrid size position with
  | some _index => none
  | none => none

end Terrain

/-- The C5 round trip: `grid_position` (model.rs) into `world_to_grid`
(terrain.rs) on a grid of the same size, the world X/Z pair re-assembled
into a position. -/
def roundTrip (size : ℕ × ℕ) (c : ℕ × ℕ) : Option (ℕ × ℕ) :=
  let wg : WorldGeometry Unit := ⟨size, []⟩
  let p := wg.gridPosition c
  Terrain.worldToGrid size (p.1, 0, p.2)

/-- Evaluation shape of `world_to_grid`: the guard and the truncated pair,
with the recentered local coordinate written out. -/
theorem worldToGrid_eval (size : ℕ × ℕ) (p : ℚ × ℚ × ℚ) :
    Terrain.worldToGrid size p =
      if (size.1 : ℚ) < p.1 + size.1 / 2 ∨ (size.2 : ℚ) < p.2.2 + size.2 / 2 ∨
          p.1 + size.1 / 2 < 0 ∨ p.2.2 + size.2 / 2 < 0 then none
      else some ((⌊p.1 + size.1 / 2⌋).toNat, (⌊p.2.2 + size.2 / 2⌋).toNat) :=
  rfl

/-- Flooring a natural number plus one half gives the number back. -/
theorem floor_add_half (m : ℕ) : ⌊(m : ℚ) + 1 / 2⌋ = m := by
  rw [show (m : ℚ) + 1 / 2 = 1 / 2 + ((m : ℤ) : ℚ) by push_cast; ring,
    Int.floor_add_int]
  norm_num

/-- C1 (code bug): this revision's `Terrain::survey` never produces a
survey — it returns `None` for every position, in bounds or not — even
though `world_to_grid` resolves in-bounds positions (on a 64×64 terrain
the world origin maps to cell `(32,32)`).  The in-repo caller building.rs
and the spec both require `Some` with a classified cell there. -/
theorem c1_survey_always_none :
    (∀ (size : ℕ × ℕ) (p : ℚ × ℚ × ℚ), Terrain.survey size p = none) ∧
      Terrain.worldToGrid (64, 64) (0, 0, 0) = some (32, 32) := by
  constructor
  · intro size p
    unfold Terrain.survey
    cases Terrain.worldToGrid size p <;> rfl
  · rw [worldToGrid_eval, if_neg (by norm_num)]
    norm_num
    all_goals decide

/-- C6 (amended): `world_to_grid` returns `None` exactly when the
recentered local coordinate is negative or STRICTLY greater than the size
on either axis; on `[0, size]` it returns the floored indices, and only
the strict interior `[0, size)` guarantees components below the size —
the far boundary `local = size` yields `Some` with a component equal to
the size. -/
theorem c6_world_to_grid_characterization (size : ℕ × ℕ) (p : ℚ × ℚ × ℚ) :
    (Terrain.worldToGrid size p = none ↔
      (size.1 : ℚ) < p.1 + size.1 / 2 ∨ (size.2 : ℚ) < p.2.2 + size.2 / 2 ∨
        p.1 + size.1 / 2 < 0 ∨ p.2.2 + size.2 / 2 < 0) ∧
    (0 ≤ p.1 + size.1 / 2 → p.1 + size.1 / 2 ≤ size.1 →
      0 ≤ p.2.2 + size.2 / 2 → p.2.2 + size.2 / 2 ≤ size.2 →
      Terrain.worldToGrid size p =
        some ((⌊p.1 + size.1 / 2⌋).toNat, (⌊p.2.2 + size.2 / 2⌋).toNat)) ∧
    (p.1 + size.1 / 2 < size.1 → p.2.2 + size.2 / 2 < size.2 →
      ∀ c : ℕ × ℕ, Terrain.worldToGrid size p = some c →
        c.1 < size.1 ∧ c.2 < size.2) := by
  refine ⟨?_, ?_, ?_⟩
  · rw [worldToGrid_eval]
    split_ifs with h
    · exact iff_of_true rfl h
    · exact iff_of_false (by simp) h
  · intro h1 h2 h3 h4
    rw [worldToGrid_eval, if_neg (by push_neg; exact ⟨h2, h4, h1, h3⟩)]
  · intro hlt1 hlt2 c hc
    rw [worldToGrid_eval] at hc
    have hf1 : ⌊p.1 + size.1 / 2⌋ < (size.1 : ℤ) :=
      Int.floor_lt.mpr (by exact_mod_cast hlt1)
    have hf2 : ⌊p.2.2 + size.2 / 2⌋ < (size.2 : ℤ) :=
      Int.floor_lt.mpr (by exact_mod_cast hlt2)
    split_ifs at hc with hguard
    push_neg at hguard
    have h01 : (0 : ℤ) ≤ ⌊p.1 + size.1 / 2⌋ :=
      Int.floor_nonneg.mpr hguard.2.2.1
    have h02 : (0 : ℤ) ≤ ⌊p.2.2 + size.2 / 2⌋ :=
      Int.floor_nonneg.mpr hguard.2.2.2
    obtain rfl : c = _ := (Option.some.inj hc).symm
    exact ⟨by omega, by omega⟩

/-- C6 counterexample: on a 64×64 terrain, the world position `(32,0,0)`
has local coordinate exactly `(64,32)`; `world_to_grid` accepts it and
returns `Some((64,32))`, whose first component equals the size — the
claim's "never returns a coordinate with a component equal to or
exceeding size" fails. -/
theorem c6_far_boundary_counterexample :
    Terrain.worldToGrid (64, 64) (32, 0, 0) = some (64, 32) ∧
      ¬(64 : ℕ) < 64 := by
  constructor
  · rw [worldToGrid_eval, if_neg (by norm_num)]
    norm_num
    all_goals decide
  · decide

/-- C6 witness: a far-out position is rejected through the amended
characterization. -/
theorem c6_world_to_grid_characterization_witness :
    Terrain.worldToGrid (64, 64) (100, 0, 0) = none :=
  (c6_world_to_grid_characterization (64, 64) (100, 0, 0)).1.mpr
    (by norm_num)

/-- C5 (amended): for SQUARE grids of EVEN size, `world_to_grid` inverts
`grid_position` on every in-bounds cell.  (Odd sizes break because
`index_to_coordindates` subtracts the integer half `size/2` while
`world_to_grid` adds back the exact rational half, shifting every cell by
one; non-square grids additionally mix the axes in `index_to_grid` and
`coordinates_to_index`.) -/
theorem c5_round_trip_even_square (n x y : ℕ) (hn : n % 2 = 0)
    (hx : x < n) (hy : y < n) :
    roundTrip (n, n) (x, y) = some (x, y) := by
  obtain ⟨k, rfl⟩ : ∃ k, n = 2 * k := ⟨n / 2, by omega⟩
  have hk0 : 0 < 2 * k := by omega
  have hhalf : 2 * k / 2 = k := by omega
  have hmod : (y * (2 * k) + x) % (2 * k) = x := by
    rw [mul_comm y (2 * k), Nat.mul_add_mod]
    exact Nat.mod_eq_of_lt hx
  have hdiv : (y * (2 * k) + x) / (2 * k) = y := by
    rw [mul_comm y (2 * k), Nat.mul_add_div hk0, Nat.div_eq_of_lt hx,
      Nat.add_zero]
  have hgp : (⟨(2 * k, 2 * k), []⟩ : WorldGeometry Unit).gridPosition (x, y) =
      ((x : ℚ) - (k : ℚ) + 1 / 2, (y : ℚ) - (k : ℚ) + 1 / 2) := by
    simp only [WorldGeometry.gridPosition, WorldGeometry.coordinatesToIndex,
      WorldGeometry.indexToCoordindates, WorldGeometry.indexToGrid]
    rw [hmod, hdiv, hhalf]
  have hxq : (x : ℚ) + 1 ≤ ((2 * k : ℕ) : ℚ) := by exact_mod_cast hx
  have hyq : (y : ℚ) + 1 ≤ ((2 * k : ℕ) : ℚ) := by exact_mod_cast hy
  have hlx : ((x : ℚ) - (k : ℚ) + 1 / 2) + ((2 * k : ℕ) : ℚ) / 2 =
      (x : ℚ) + 1 / 2 := by push_cast; ring
  have hly : ((y : ℚ) - (k : ℚ) + 1 / 2) + ((2 * k : ℕ) : ℚ) / 2 =
      (y : ℚ) + 1 / 2 := by push_cast; ring
  simp only [roundTrip]
  rw [hgp, worldToGrid_eval]
  dsimp only
  rw [hlx, hly, if_neg (by push_neg; refine ⟨by linarith, by linarith, by positivity, by positivity⟩),
    floor_add_half, floor_add_half]
  simp

/-- C5 counterexample: on a 5×5 (odd) grid the round trip moves cell
`(0,0)` to `(1,1)`. -/
theorem c5_round_trip_odd_counterexample :
    roundTrip (5, 5) (0, 0) = some (1, 1) ∧ ((1, 1) : ℕ × ℕ) ≠ (0, 0) := by
  constructor
  · simp only [roundTrip, WorldGeometry.gridPosition,
      WorldGeometry.coordinatesToIndex, WorldGeometry.indexToCoordindates,
      WorldGeometry.indexToGrid, Terrain.worldToGrid, Terrain.worldToLocal,
      Terrain.truncToNat]
    norm_num
  · decide

/-- C5 witness: the amended round trip on a 4×4 grid at cell `(1,2)`. -/
theorem c5_round_trip_even_square_witness :
    roundTrip (4, 4) (1, 2) = some (1, 2) :=
  c5_round_trip_even_square 4 1 2 rfl (by decide) (by decide)

/-- Concrete 2×2 `WorldGeometry` used by the C2 counterexample. -/
def wgEx : WorldGeometry ℕ := ⟨(2, 2), [10, 11, 12, 13]⟩

/-- Concrete 2×2 `Grid` used by the C2 witness. -/
def gridEx : Grid ℕ := ⟨(2, 2), [1, 2, 3, 4]⟩

/-- C2 counterexample: `WorldGeometry::get` has no per-axis bounds check —
on a 2×2 grid the coordinate `(2,0)` with `x >= width` reads flat index
`0*2+2 = 2` and returns `Some 12`, the element stored for cell `(0,1)`,
where the claim requires `None`. -/
theorem c2_worldgeometry_get_counterexample :
    wgEx.get (2, 0) = some 12 ∧ 2 ≥ wgEx.size.1 := by decide

/-- C2 (amended): the per-axis bounds contract holds for `Grid::get`
(model/grid.rs) — negative or `≥ size` coordinates give `None`, and
in-range coordinates of a size-consistent grid give `Some` of the stored
element at row-major index `y*width + x`.  `WorldGeometry::get`
(model.rs) instead checks only the flat index `y*height + x` against the
storage length, so out-of-range `x` can alias into a later row. -/
theorem c2_get_bounds :
    (∀ (T : Type) (g : Grid T) (p : ℤ × ℤ),
      (p.1 < 0 ∨ p.2 < 0 ∨ (g.size.1 : ℤ) ≤ p.1 ∨ (g.size.2 : ℤ) ≤ p.2) →
        g.get p = none) ∧
    (∀ (T : Type) (g : Grid T) (p : ℤ × ℤ), g.inv →
      0 ≤ p.1 → 0 ≤ p.2 → p.1 < (g.size.1 : ℤ) → p.2 < (g.size.2 : ℤ) →
        g.get p = g.items[p.2.toNat * g.size.1 + p.1.toNat]? ∧
          (g.get p).isSome = true) ∧
    (∀ (T : Type) (g : WorldGeometry T) (c : ℕ × ℕ),
      g.get c = none ↔ g.map.length ≤ c.2 * g.size.2 + c.1) := by
  refine ⟨?_, ?_, ?_⟩
  · intro T g p hp
    unfold Grid.get
    rw [if_pos (by tauto)]
  · intro T g p hinv h0x h0y hx hy
    have hxn : p.1.toNat < g.size.1 := by omega
    have hyn : p.2.toNat < g.size.2 := by omega
    have hidx : p.1.toNat + p.2.toNat * g.size.1 < g.items.length := by
      rw [hinv]
      calc p.1.toNat + p.2.toNat * g.size.1
          < g.size.1 + p.2.toNat * g.size.1 := by omega
        _ = (p.2.toNat + 1) * g.size.1 := by ring
        _ ≤ g.size.2 * g.size.1 := Nat.mul_le_mul_right _ (by omega)
        _ = g.size.1 * g.size.2 := Nat.mul_comm _ _
    have hnone : ¬((g.size.1 : ℤ) ≤ p.1 ∨ (g.size.2 : ℤ) ≤ p.2 ∨
        p.1 < 0 ∨ p.2 < 0) := by push_neg; omega
    refine ⟨?_, ?_⟩
    · unfold Grid.get
      rw [if_neg hnone, Nat.add_comm]
    · unfold Grid.get
      rw [if_neg hnone, List.getElem?_eq_getElem hidx]
      rfl
  · intro T g c
    unfold WorldGeometry.get WorldGeometry.coordinatesToIndex
    exact List.getElem?_eq_none_iff

/-- C2 witness: the amended bounds contract on a concrete 2×2 grid — a
negative coordinate reads `None` and an in-range one reads the row-major
element. -/
theorem c2_get_bounds_witness :
    gridEx.get (-1, 0) = none ∧ gridEx.get (1, 1) = some 4 := by
  refine ⟨c2_get_bounds.1 ℕ gridEx (-1, 0) (Or.inl (by decide)), ?_⟩
  have h := (c2_get_bounds.2.1 ℕ gridEx (1, 1) (by unfold Grid.inv; decide)
    (by decide) (by decide) (by decide) (by decide)).1
  simpa using h

/-- Any grid `Grid::new` returns satisfies the length invariant — the
assert admits exactly matching lengths. -/
theorem Grid.new_some_inv {T : Type u} {size : ℕ × ℕ} {items : List T}
    {g : Grid T} (h : Grid.new size items = some g) : g.inv := by
  unfold Grid.new at h
  split_ifs at h with hs
  obtain rfl : g = ⟨size, items⟩ := (Option.some.inj h).symm
  exact hs.symm

/-- `from_rows` funnels through `new`, so its results inherit the
invariant. -/
theorem Grid.fromRows_some_inv {T : Type u} {rows : List (List T)}
    {g : Grid T} (h : Grid.fromRows rows = some g) : g.inv := by
  cases rows with
  | nil => simp [Grid.fromRows] at h
  | cons r0 rest => exact Grid.new_some_inv h

/-- A fold whose step preserves size and storage length preserves the
`WorldGeometry` invariant. -/
theorem WorldGeometry.foldl_inv {T : Type u} {α : Type v}
    (f : WorldGeometry T → α → WorldGeometry T)
    (hf : ∀ g a, (f g a).size = g.size ∧ (f g a).map.length = g.map.length) :
    ∀ (l : List α) (g : WorldGeometry T), g.inv → (l.foldl f g).inv := by
  intro l
  induction l with
  | nil => intro g hg; exact hg
  | cons a as ih =>
      intro g hg
      refine ih (f g a) ?_
      unfold WorldGeometry.inv at hg ⊢
      rw [(hf g a).1, (hf g a).2]
      exact hg

/-- C9: every grid value reachable through `new`, `from_rows` (also the
noise-map conversion, which is `new` applied to the noise values), `grow`,
`duplicate` and `expand` — each of which funnels its result through the
`new` assert — satisfies `len == width*height`, and the `WorldGeometry`
constructors and in-place writers (`new`, `set`, `outline`) preserve the
same invariant. -/
theorem c9_length_invariant :
    (∀ (T : Type) (size : ℕ × ℕ) (items : List T) (g : Grid T),
      Grid.new size items = some g → g.inv) ∧
    (∀ (T : Type) (rows : List (List T)) (g : Grid T),
      Grid.fromRows rows = some g → g.inv) ∧
    (∀ (T : Type) (_ : Inhabited T) (g g' : Grid T),
      Grid.grow g = some g' → g'.inv) ∧
    (∀ (T : Type) (g g' : Grid T) (factor : ℕ × ℕ),
      Grid.duplicate g factor = some g' → g'.inv) ∧
    (∀ (T : Type) (g : Grid T) (g' : Grid (List T)),
      Grid.expand g = some g' → g'.inv) ∧
    (∀ (T : Type) (_ : Inhabited T) (size : ℕ × ℕ),
      (WorldGeometry.new T size).inv) ∧
    (∀ (T : Type) (g : WorldGeometry T) (c : ℕ × ℕ) (v : T),
      g.inv → (g.set c v).inv) ∧
    (∀ (T : Type) (g : WorldGeometry T) (p0 p1 : ℕ × ℕ) (v : T),
      g.inv → (g.outline p0 p1 v).inv) := by
  refine ⟨?_, ?_, ?_, ?_, ?_, ?_, ?_, ?_⟩
  · intro T size items g h
    exact Grid.new_some_inv h
  · intro T rows g h
    exact Grid.fromRows_some_inv h
  · intro T _ g g' h
    exact Grid.fromRows_some_inv h
  · intro T g g' factor h
    exact Grid.new_some_inv h
  · intro T g g' h
    exact Grid.new_some_inv h
  · intro T _ size
    simp [WorldGeometry.inv, WorldGeometry.new]
  · intro T g c v h
    simpa [WorldGeometry.inv, WorldGeometry.set] using h
  · intro T g p0 p1 v h
    unfold WorldGeometry.outline
    have hstep : ∀ (c1 c2 : ℕ × ℕ) (g : WorldGeometry T),
        ((g.set c1 v).set c2 v).size = g.size ∧
          ((g.set c1 v).set c2 v).map.length = g.map.length :=
      fun c1 c2 g => ⟨rfl, by simp [WorldGeometry.set]⟩
    refine WorldGeometry.foldl_inv
      (fun g y => (g.set (p0.1, y) v).set (p1.1, y) v)
      (fun g a => hstep _ _ g) _ _ ?_
    exact WorldGeometry.foldl_inv
      (fun g x => (g.set (x, p0.2) v).set (x, p1.2) v)
      (fun g a => hstep _ _ g) _ _ h

/-- C9 witness: a 2×2 grid built by `new` satisfies the invariant. -/
theorem c9_length_invariant_witness : (⟨(2, 2), [1, 2, 3, 4]⟩ : Grid ℕ).inv :=
  c9_length_invariant.1 ℕ (2, 2) [1, 2, 3, 4] ⟨(2, 2), [1, 2, 3, 4]⟩ rfl

/-- The flat index a `WorldGeometry` of size `s` uses for cell `c`
(stride `s.2`, the height, as in `coordinates_to_index`). -/
def sizeIndex (s : ℕ × ℕ) (c : ℕ × ℕ) : ℕ := c.2 * s.2 + c.1

/-- Writing one value at each of a list of flat indices. -/
def listSetMany (v : T) (idxs : List ℕ) (l : List T) : List T :=
  idxs.foldl (fun l i => l.set i v) l

/-- Writing one value at each of a list of cells. -/
def WorldGeometry.setMany (g : WorldGeometry T) (cells : List (ℕ × ℕ))
    (v : T) : WorldGeometry T :=
  cells.foldl (fun g c => g.set c v) g

theorem WorldGeometry.setMany_size (g : WorldGeometry T)
    (cells : List (ℕ × ℕ)) (v : T) : (g.setMany cells v).size = g.size := by
  induction cells generalizing g with
  | nil => rfl
  | cons c cs ih => exact ih (g.set c v)

theorem WorldGeometry.setMany_map (g : WorldGeometry T)
    (cells : List (ℕ × ℕ)) (v : T) :
    (g.setMany cells v).map =
      listSetMany v (cells.map (sizeIndex g.size)) g.map := by
  induction cells generalizing g with
  | nil => rfl
  | cons c cs ih =>
      show ((g.set c v).setMany cs v).map = _
      rw [ih]
      rfl

/-- Reading after a batch of same-value writes: the write wins exactly on
the written in-range indices. -/
theorem getElem?_listSetMany (v : T) :
    ∀ (idxs : List ℕ) (l : List T) (j : ℕ),
      (listSetMany v idxs l)[j]? =
        if j ∈ idxs ∧ j < l.length then some v else l[j]? := by
  intro idxs
  induction idxs with
  | nil =>
      intro l j
      simp [listSetMany]
  | cons i is ih =>
      intro l j
      show (listSetMany v is (l.set i v))[j]? = _
      rw [ih, List.getElem?_set]
      simp only [List.length_set, List.mem_cons]
      by_cases hlen : j < l.length
      · by_cases hmem : j ∈ is
        · rw [if_pos ⟨hmem, hlen⟩, if_pos ⟨Or.inr hmem, hlen⟩]
        · rw [if_neg (fun hc => hmem hc.1)]
          by_cases hij : i = j
          · subst hij
            rw [if_pos rfl, if_pos hlen, if_pos ⟨Or.inl rfl, hlen⟩]
          · rw [if_neg hij,
              if_neg (fun hc => hc.1.elim (fun hji => hij hji.symm) hmem)]
      · have hnone : l[j]? = none := List.getElem?_eq_none_iff.mpr (by omega)
        rw [if_neg (fun hc : j ∈ is ∧ j < l.length => hlen hc.2),
          if_neg (fun hc : (j = i ∨ j ∈ is) ∧ j < l.length => hlen hc.2)]
        by_cases hij : i = j
        · subst hij
          rw [if_pos rfl, if_neg hlen, hnone]
        · rw [if_neg hij]

/-- Grid-level reading after a batch write. -/
theorem WorldGeometry.get_setMany (g : WorldGeometry T)
    (cells : List (ℕ × ℕ)) (v : T) (c : ℕ × ℕ) :
    (g.setMany cells v).get c =
      if sizeIndex g.size c ∈ cells.map (sizeIndex g.size) ∧
          sizeIndex g.size c < g.map.length then some v
      else g.get c := by
  show (g.setMany cells v).map[(g.setMany cells v).coordinatesToIndex c]? = _
  rw [WorldGeometry.setMany_map]
  have hidx : (g.setMany cells v).coordinatesToIndex c = sizeIndex g.size c := by
    unfold WorldGeometry.coordinatesToIndex
    rw [WorldGeometry.setMany_size]
    rfl
  rw [hidx, getElem?_listSetMany]
  rfl

/-- Row-major flat indices with stride `h` are injective on coordinates
whose `x` component is below `h`. -/
theorem rowMajor_inj {h x x' y y' : ℕ} (hx : x < h) (hx' : x' < h) :
    y * h + x = y' * h + x' ↔ x = x' ∧ y = y' := by
  constructor
  · intro heq
    have hh : 0 < h := by omega
    have e1 : (y * h + x) % h = x := by
      rw [mul_comm, Nat.mul_add_mod]
      exact Nat.mod_eq_of_lt hx
    have e2 : (y' * h + x') % h = x' := by
      rw [mul_comm, Nat.mul_add_mod]
      exact Nat.mod_eq_of_lt hx'
    have d1 : (y * h + x) / h = y := by
      rw [mul_comm, Nat.mul_add_div hh, Nat.div_eq_of_lt hx, Nat.add_zero]
    have d2 : (y' * h + x') / h = y' := by
      rw [mul_comm, Nat.mul_add_div hh, Nat.div_eq_of_lt hx', Nat.add_zero]
    exact ⟨by rw [← e1, ← e2, heq], by rw [← d1, ← d2, heq]⟩
  · rintro ⟨rfl, rfl⟩
    rfl

/-- Membership of a flat index in the image of a cell list, for cells
whose `x` components stay below the stride. -/
theorem sizeIndex_mem_iff {w h x y : ℕ} (hxh : x < h)
    (cs : List (ℕ × ℕ)) (hcs : ∀ c ∈ cs, c.1 < h) :
    sizeIndex (w, h) (x, y) ∈ cs.map (sizeIndex (w, h)) ↔ (x, y) ∈ cs := by
  induction cs with
  | nil => simp
  | cons c rest ih =>
      simp only [List.map_cons, List.mem_cons]
      have hch : c.1 < h := hcs c (List.mem_cons_self c rest)
      have hrest : ∀ c' ∈ rest, c'.1 < h :=
        fun c' hc' => hcs c' (List.mem_cons_of_mem _ hc')
      rw [ih hrest]
      refine or_congr ?_ Iff.rfl
      unfold sizeIndex
      dsimp only
      rw [rowMajor_inj hxh hch, Prod.ext_iff]

/-- The 16 cells `outline((0,0),(4,4))` writes, in source write order. -/
def cells16 : List (ℕ × ℕ) :=
  [(0, 0), (0, 4), (1, 0), (1, 4), (2, 0), (2, 4), (3, 0), (3, 4),
    (4, 0), (4, 4), (0, 1), (4, 1), (0, 2), (4, 2), (0, 3), (4, 3)]

/-- `outline((0,0),(4,4))` is the batch write of `cells16`. -/
theorem outline_eq_setMany (g : WorldGeometry T) (v : T) :
    g.outline (0, 0) (4, 4) v = g.setMany cells16 v := rfl

/-- C8 (amended): on a grid whose width is at least 5 and at most its
height — in particular on the square grids every caller builds —
`outline((0,0),(4,4),V)` sets exactly the 16 perimeter cells of the 5×5
block to `V` and leaves every other readable cell at its prior value.
Grids wider than tall break the claim because `coordinates_to_index`
strides by the HEIGHT, aliasing distinct cells to one flat index. -/
theorem c8_outline_frame (T : Type) (w h : ℕ) (g : WorldGeometry T) (v : T)
    (hw : 5 ≤ w) (hwh : w ≤ h) (hsize : g.size = (w, h))
    (hlen : g.map.length = w * h) (x y : ℕ) (hx : x < w) (_hy : y < h) :
    (g.outline (0, 0) (4, 4) v).get (x, y) =
      if x ≤ 4 ∧ y ≤ 4 ∧ (x = 0 ∨ x = 4 ∨ y = 0 ∨ y = 4) then some v
      else g.get (x, y) := by
  rw [outline_eq_setMany, WorldGeometry.get_setMany]
  have hxh : x < h := lt_of_lt_of_le hx hwh
  have hb : ∀ c ∈ cells16, c.1 ≤ 4 ∧ c.2 ≤ 4 := by decide
  have hmm : sizeIndex g.size (x, y) ∈ cells16.map (sizeIndex g.size) ↔
      (x, y) ∈ cells16 := by
    rw [hsize]
    exact sizeIndex_mem_iff hxh cells16
      (fun c hc => by have := (hb c hc).1; omega)
  have hmem2 : (x, y) ∈ cells16 ↔
      (x ≤ 4 ∧ y ≤ 4 ∧ (x = 0 ∨ x = 4 ∨ y = 0 ∨ y = 4)) := by
    simp [cells16, Prod.ext_iff]
    omega
  have hidxlt : y ≤ 4 → sizeIndex g.size (x, y) < g.map.length := by
    intro h4
    rw [hsize, hlen]
    unfold sizeIndex
    dsimp only
    calc y * h + x < y * h + h := by omega
      _ = (y + 1) * h := by ring
      _ ≤ 5 * h := Nat.mul_le_mul_right h (by omega)
      _ ≤ w * h := Nat.mul_le_mul_right h hw
  by_cases hp : x ≤ 4 ∧ y ≤ 4 ∧ (x = 0 ∨ x = 4 ∨ y = 0 ∨ y = 4)
  · rw [if_pos hp, if_pos ⟨hmm.mpr (hmem2.mpr hp), hidxlt hp.2.1⟩]
  · rw [if_neg hp, if_neg (fun hc => hp (hmem2.mp (hmm.mp hc.1)))]

/-- C8 counterexample: on a 6×5 grid (wider than tall, all zeros) the
outline changes the cell `(5,0)`, which is OUTSIDE the 5×5 block: the
side-column write at `(0,1)` lands on flat index `1*5+0 = 5`, the same
index `get((5,0))` reads (`0*5+5`). -/
theorem c8_outline_nonsquare_counterexample :
    ((⟨(6, 5), List.replicate 30 0⟩ : WorldGeometry ℕ).outline (0, 0) (4, 4)
        1).get (5, 0) = some 1 ∧
      (⟨(6, 5), List.replicate 30 0⟩ : WorldGeometry ℕ).get (5, 0) = some 0 ∧
      ¬(5 : ℕ) ≤ 4 := by
  refine ⟨?_, by decide, by decide⟩
  decide

/-- C8 witness: on an all-zero 5×5 grid with `V = 7`, the amended frame
theorem reads back `7` on a perimeter cell. -/
theorem c8_outline_frame_witness :
    ((⟨(5, 5), List.replicate 25 0⟩ : WorldGeometry ℕ).outline (0, 0) (4, 4)
        7).get (0, 3) = some 7 := by
  have hfr := c8_outline_frame ℕ 5 5 ⟨(5, 5), List.replicate 25 0⟩ 7
    (by decide) (by decide) rfl (by decide) 0 3 (by decide) (by decide)
  simpa using hfr

end Rampart
